import Mathlib

/-
Verification of the VeraScore configuration-driven scoring engine.

Numeric values are modelled as exact rationals (the sources compute with
Python/JS floating point; the embedding uses ℚ so every definition is
executable and every comparison decidable).  Absent data is modelled as
Option, and code that raises at runtime is modelled as Except.

The scoring-engine package (/packages/scoring-engine) itself is not part of
the repository snapshot; only its design documents, YAML configurations and
two Python snippets (calculate_composite_score, generate_explanation) plus
the React display layer are.  Definitions taken from those snippets cite
the file; definitions for the missing engine code are marked
"Modelled from the spec:" and follow the specification text.
-/

namespace VeraScore

/-- Security metrics snapshot: a flat, sparse mapping from a dotted source
path to a numeric value, per §3 SecurityMetrics.  Absence of a key is the
absent state. -/
abbrev SecurityMetrics := List (String × ℚ)

/-- Modelled from the spec: §4.1 Metric Resolver (resolver code is not in
the repository snapshot).  Direct key lookup; absent path gives `none`. -/
def resolve (metrics : SecurityMetrics) (source_path : String) : Option ℚ :=
  metrics.lookup source_path

/-- Percentile comparison universe selector (`sector`, `industry`, `market`). -/
inductive UniverseScope
  | sector
  | industry
  | market
deriving DecidableEq, Repr

/-- Peer universe source: raw peer values for a given metric source path and
universe scope, per §6 (`get_peer_values`), already resolved in memory. -/
abbrev UniverseProvider := String → UniverseScope → List ℚ

/-- Modelled from the spec: §4.2 Percentile ranking counts (the
percentile.py module is not in the repository snapshot).  Returns the
number of peer values strictly below `raw` and the number equal to it. -/
def rankCounts (raw : ℚ) : List ℚ → Nat × Nat
  | [] => (0, 0)
  | p :: ps =>
    let (lt, eq) := rankCounts raw ps
    if p < raw then (lt + 1, eq)
    else if p = raw then (lt, eq + 1)
    else (lt, eq)

/-- Modelled from the spec: §4.2 Percentile.  Score = (count strictly less
+ 0.5 × count equal) / total peers × 100; `none` on an empty peer set. -/
def percentile_score (raw : ℚ) (peers : List ℚ) : Option ℚ :=
  if peers.isEmpty then none
  else
    let (lt, eq) := rankCounts raw peers
    some (((lt : ℚ) + (1 / 2) * (eq : ℚ)) / (peers.length : ℚ) * 100)

/-- Modelled from the spec: §4.2 Percentile Inverse, identical ranking then
100 − percentile score. -/
def percentile_inverse_score (raw : ℚ) (peers : List ℚ) : Option ℚ :=
  (percentile_score raw peers).map (fun p => 100 - p)

/-- One rule of a threshold ladder: `{min: x, score: s}`, `{max: x, score: s}`
or the unconditional `{default: s}`, per §4.2 Threshold. -/
inductive ThresholdRule
  | minRule (bound : ℚ) (score : ℚ)
  | maxRule (bound : ℚ) (score : ℚ)
  | defaultRule (score : ℚ)
deriving DecidableEq, Repr

/-- Modelled from the spec: whether a threshold rule's condition matches a
raw value; the default rule matches unconditionally. -/
def ruleMatches (raw : ℚ) : ThresholdRule → Bool
  | .minRule b _ => b ≤ raw
  | .maxRule b _ => raw ≤ b
  | .defaultRule _ => true

/-- Score carried by a threshold rule. -/
def ruleScore : ThresholdRule → ℚ
  | .minRule _ s => s
  | .maxRule _ s => s
  | .defaultRule s => s

/-- Modelled from the spec: §4.2 Threshold.  Rules are evaluated in declared
order and the first matching rule wins; with no matching rule the result is
`none` (a validated ladder always ends in a default rule). -/
def threshold_score (raw : ℚ) : List ThresholdRule → Option ℚ
  | [] => none
  | r :: rs => if ruleMatches raw r then some (ruleScore r) else threshold_score raw rs

/-- Number of default rules in a threshold ladder (§4.6 requires exactly one). -/
def defaultCount (rules : List ThresholdRule) : Nat :=
  rules.countP fun r => match r with | .defaultRule _ => true | _ => false

/-- Linear method parameters, per §4.2 Linear. -/
structure LinearBounds where
  input_min : ℚ
  input_max : ℚ
  output_min : ℚ
  output_max : ℚ
deriving DecidableEq, Repr

/-- Clamp `x` into `[lo, hi]`. -/
def clampQ (lo hi x : ℚ) : ℚ := max lo (min hi x)

/-- Modelled from the spec: §4.2 Linear.  Interpolates from the input range
to the output range then clamps to `[output_min, output_max]`; a degenerate
input range yields `output_min`. -/
def linear_score (raw : ℚ) (b : LinearBounds) : ℚ :=
  if b.input_max = b.input_min then b.output_min
  else
    clampQ b.output_min b.output_max
      (b.output_min + (raw - b.input_min) / (b.input_max - b.input_min) * (b.output_max - b.output_min))

/-- Scoring method of one metric, as a closed tagged variant (§9 "Config as
data": percentile, percentile_inverse, threshold, linear). -/
inductive ScoringMethod
  | percentile (scope : UniverseScope)
  | percentileInverse (scope : UniverseScope)
  | threshold (rules : List ThresholdRule)
  | linear (b : LinearBounds)
deriving DecidableEq, Repr

/-- MetricSpec per §3: id, source path, label, scoring method with its
parameters, weight within the factor, optional raw-value clamp bounds. -/
structure MetricSpec where
  id : String
  source : String
  label : String
  method : ScoringMethod
  weight : ℚ
  bounds : Option (ℚ × ℚ) := none
deriving DecidableEq, Repr

/-- FactorConfig per §3: identifier, version, default composite weight and
the ordered metric specs. -/
structure FactorConfig where
  factor : String
  version : Nat
  default_weight : ℚ
  metrics : List MetricSpec
deriving DecidableEq, Repr

/-- ScoreComponent per §3: per-metric result with optional raw value,
optional score and optional contribution = score × weight. -/
structure ScoreComponent where
  metric_id : String
  label : String
  raw_value : Option ℚ
  score : Option ℚ
  weight : ℚ
  contribution : Option ℚ
deriving DecidableEq, Repr

/-- FactorResult per §3: factor id, aggregate score, components. -/
structure FactorResult where
  factor : String
  score : Option ℚ
  components : List ScoreComponent
deriving DecidableEq, Repr

/-- Modelled from the spec: §4.2, the optional `bounds: {min, max}` clamp on
the raw value, applied once before dispatch to any method. -/
def applyBounds (bounds : Option (ℚ × ℚ)) (raw : ℚ) : ℚ :=
  match bounds with
  | none => raw
  | some (lo, hi) => clampQ lo hi raw

/-- Modelled from the spec: §4.3, dispatch of a present raw value to the
configured scoring method; percentile methods draw their peer set from the
universe provider for the metric's source path. -/
def dispatchMethod (up : UniverseProvider) (source : String) (m : ScoringMethod) (raw : ℚ) : Option ℚ :=
  match m with
  | .percentile u => percentile_score raw (up source u)
  | .percentileInverse u => percentile_inverse_score raw (up source u)
  | .threshold rules => threshold_score raw rules
  | .linear b => some (linear_score raw b)

/-- Modelled from the spec: §4.3, scoring of one MetricSpec.  An absent raw
value yields a component with `score = none` and `contribution = none`;
a present value is clamped, dispatched, and the contribution is
score × weight. -/
def scoreMetric (metrics : SecurityMetrics) (up : UniverseProvider) (spec : MetricSpec) : ScoreComponent :=
  match resolve metrics spec.source with
  | none =>
    { metric_id := spec.id, label := spec.label, raw_value := none,
      score := none, weight := spec.weight, contribution := none }
  | some raw =>
    let clamped := applyBounds spec.bounds raw
    let s := dispatchMethod up spec.source spec.method clamped
    { metric_id := spec.id, label := spec.label, raw_value := some clamped,
      score := s, weight := spec.weight, contribution := s.map (fun v => v * spec.weight) }

/-- Modelled from the spec: §4.3 aggregation accumulator over the component
list, collecting Σ(score × weight) and Σ(weight) over components whose score
is present only. -/
def aggregateAcc : List ScoreComponent → ℚ × ℚ
  | [] => (0, 0)
  | c :: cs =>
    let (n, d) := aggregateAcc cs
    match c.score with
    | none => (n, d)
    | some s => (n + s * c.weight, d + c.weight)

/-- Modelled from the spec: §4.3 aggregate factor score, the weighted mean
over present components; `none` when no weight was accumulated (in
particular when no component has a present score). -/
def aggregateScore (cs : List ScoreComponent) : Option ℚ :=
  let (n, d) := aggregateAcc cs
  if d = 0 then none else some (n / d)

/-- Components of a factor result whose score is present. -/
def presentComponents (r : FactorResult) : List ScoreComponent :=
  r.components.filter fun c => c.score.isSome

/-- Modelled from the spec: §4.3 Factor Calculator contract
`calculate(security_metrics, factor_config, universe_provider) -> FactorResult`
(calculator.py is not in the repository snapshot). -/
def calculate_factor_score (metrics : SecurityMetrics) (config : FactorConfig) (up : UniverseProvider) : FactorResult :=
  let comps := config.metrics.map (scoreMetric metrics up)
  { factor := config.factor, score := aggregateScore comps, components := comps }

/-- One factor inside a scoring profile: the factor config plus its weight
in the composite, as used by `calculate_composite_score` (part_002 lines
528 and 534 access `factor_config.factor` and `f.weight` on these). -/
structure ProfileFactor where
  config : FactorConfig
  weight : ℚ
deriving DecidableEq, Repr

/-- Scoring profile consumed by the composite calculator (part_002
`profile.factors`, `profile.name`). -/
structure Profile where
  name : String
  factors : List ProfileFactor
deriving DecidableEq, Repr

/-- CompositeScore envelope returned by `calculate_composite_score`
(part_002 lines 539 to 544); the explanation strings are produced by the
external template renderer and are outside this embedding. -/
structure CompositeScore where
  overall_score : ℚ
  factor_scores : List (String × Option ℚ)
  profile_used : String
deriving DecidableEq, Repr

/-- Python `round` to an integer: round half to even (banker's rounding). -/
def pyRoundHalfEven (y : ℚ) : ℤ :=
  let n := ⌊y⌋
  let frac := y - (n : ℚ)
  if frac < 1 / 2 then n
  else if 1 / 2 < frac then n + 1
  else if n % 2 = 0 then n else n + 1

/-- Python `round(x, 1)`: one decimal place, half to even. -/
def pyRound1 (x : ℚ) : ℚ := (pyRoundHalfEven (10 * x) : ℚ) / 10

/-- The generator sum of part_002 lines 534 to 537,
`sum(factor_scores[f.factor] * f.weight for f in profile.factors)`:
each term multiplies a factor score by the profile weight, and a `None`
factor score makes the whole sum raise a TypeError, modelled as `none`. -/
def weightedTerms (metrics : SecurityMetrics) (up : UniverseProvider) : List ProfileFactor → Option (List ℚ)
  | [] => some []
  | f :: fs =>
    match (calculate_factor_score metrics f.config up).score, weightedTerms metrics up fs with
    | some s, some rest => some (s * f.weight :: rest)
    | _, _ => none

/-- Embedding of `calculate_composite_score` (part_002 lines 519 to 544):
one factor-score calculation per profile factor, then the weighted sum over
all factors rounded to one decimal.  The Python code applies
`factor_scores[f.factor] * f.weight` to every factor with no treatment of
absent scores, so an absent factor score raises a TypeError, modelled as
`Except.error`. -/
def calculate_composite_score (metrics : SecurityMetrics) (up : UniverseProvider) (profile : Profile) : Except String CompositeScore :=
  match weightedTerms metrics up profile.factors with
  | none => .error "TypeError: unsupported operand type(s) for *: 'NoneType' and 'float'"
  | some terms =>
    .ok { overall_score := pyRound1 terms.sum,
          factor_scores := profile.factors.map fun f =>
            (f.config.factor, (calculate_factor_score metrics f.config up).score),
          profile_used := profile.name }

/-- A score component tagged with its declaration index and its Python sort
key (its contribution), used to model `sorted(result.components,
key=lambda c: c.contribution, reverse=True)` from part_002 lines 581 to 585.
-/
structure Ranked where
  idx : Nat
  key : ℚ
  comp : ScoreComponent
deriving DecidableEq, Repr

/-- Ordering realised by Python's stable descending sort: larger key first,
ties kept in original (declaration) order. -/
def rankedBefore (a b : Ranked) : Prop :=
  b.key < a.key ∨ (a.key = b.key ∧ a.idx ≤ b.idx)

instance : DecidableRel rankedBefore := fun a b => by
  unfold rankedBefore; infer_instance

instance : IsTotal Ranked rankedBefore := by
  constructor
  intro a b
  rcases lt_trichotomy a.key b.key with h | h | h
  · exact Or.inr (Or.inl h)
  · rcases Nat.le_total a.idx b.idx with hi | hi
    · exact Or.inl (Or.inr ⟨h, hi⟩)
    · exact Or.inr (Or.inr ⟨h.symm, hi⟩)
  · exact Or.inl (Or.inl h)

instance : IsTrans Ranked rankedBefore := by
  constructor
  intro a b c hab hbc
  rcases hab with h1 | ⟨h1, i1⟩
  · rcases hbc with h2 | ⟨h2, _⟩
    · exact Or.inl (h2.trans h1)
    · exact Or.inl (h2 ▸ h1)
  · rcases hbc with h2 | ⟨h2, i2⟩
    · exact Or.inl (h1 ▸ h2)
    · exact Or.inr ⟨h1.trans h2, i1.trans i2⟩

/-- Sort key of a component, `contribution` read as a rational (only used
on components whose contribution is present). -/
def contributionKey (c : ScoreComponent) : ℚ := c.contribution.getD 0

/-- The component list tagged with declaration indices and sort keys. -/
def rankComponents (cs : List ScoreComponent) : List Ranked :=
  cs.enum.map fun p => { idx := p.1, key := contributionKey p.2, comp := p.2 }

/-- The Python stable descending sort of part_002 lines 581 to 585, realised
as an insertion sort by the total order `rankedBefore` (contribution
descending, declaration index ascending on ties). -/
def sortedRanked (cs : List ScoreComponent) : List Ranked :=
  List.insertionSort rankedBefore (rankComponents cs)

/-- `sorted_components` from `generate_explanation`. -/
def sortComponents (cs : List ScoreComponent) : List ScoreComponent :=
  (sortedRanked cs).map fun x => x.comp

/-- Last element of `x :: xs`; models Python list index -1. -/
def lastOf (x : α) : List α → α
  | [] => x
  | y :: ys => lastOf y ys

/-- The rendering context built by `generate_explanation` (part_002 lines
587 to 593); the external `render_template` consuming it is not in the
repository snapshot. -/
structure ExplanationContext where
  score : Option ℚ
  top_contributor : ScoreComponent
  second_contributor : ScoreComponent
  bottom_contributor : ScoreComponent
  components : List ScoreComponent
deriving DecidableEq, Repr

/-- Embedding of `generate_explanation` (part_002 lines 576 to 595).  The
Python code sorts ALL components by `contribution` (with fewer than two
components the sort performs no comparison and `sorted_components[1]`
raises IndexError; with two or more components an absent contribution makes
the sort compare None against a number and raise TypeError), then takes
indices 0, 1 and -1 of the sorted list. -/
def generate_explanation (result : FactorResult) : Except String ExplanationContext :=
  if result.components.length < 2 then
    .error "IndexError: list index out of range"
  else if result.components.any (fun c => c.contribution.isNone) then
    .error "TypeError: '<' not supported between instances of 'NoneType' and 'float'"
  else
    match sortComponents result.components with
    | a :: b :: rest =>
      .ok { score := result.score, top_contributor := a, second_contributor := b,
            bottom_contributor := lastOf b rest, components := a :: b :: rest }
    | _ => .error "IndexError: list index out of range"

/-- JavaScript `Math.round`: nearest integer, halves toward positive
infinity. -/
def jsMathRound (x : ℚ) : ℤ := ⌊x + 1 / 2⌋

/-- Score text of `ScoreBadge` (ScoreCard.tsx lines 37 to 48):
`score !== null ? Math.round(score) : '—'`. -/
def scoreBadgeText (score : Option ℚ) : String :=
  match score with
  | some s => toString (jsMathRound s)
  | none => "—"

/-- Score text of `FactorCard` (ScoreCard.tsx lines 60 to 62):
`factor.score !== null ? Math.round(factor.score) : '—'`. -/
def factorCardScoreText (score : Option ℚ) : String :=
  match score with
  | some s => toString (jsMathRound s)
  | none => "—"

/-- `scoreLabel` from ScoreCard.tsx lines 22 to 29. -/
def scoreLabel (score : Option ℚ) : String :=
  match score with
  | none => "—"
  | some s =>
    if 80 ≤ s then "Excellent"
    else if 65 ≤ s then "Strong"
    else if 50 ≤ s then "Moderate"
    else if 35 ≤ s then "Below Avg"
    else "Weak"

/-- Left-pad a digit string with zeros to the given width. -/
def padZeros (width : Nat) (s : String) : String :=
  String.mk (List.replicate (width - s.length) '0') ++ s

/-- JavaScript `Number.prototype.toFixed(digits)`: nearest multiple of
10^-digits, halves toward positive infinity in magnitude of the scaled
value, with the sign of a negative input kept even when it rounds to zero.
-/
def toFixed (digits : Nat) (x : ℚ) : String :=
  let pow : ℚ := (10 : ℚ) ^ digits
  let n : ℤ := ⌊x * pow + 1 / 2⌋
  let m : Nat := n.natAbs
  let sign := if x < 0 then "-" else ""
  sign ++ toString (m / 10 ^ digits) ++ "." ++ padZeros digits (toString (m % 10 ^ digits))

/-- Insert thousands separators into a reversed digit list. -/
def groupChars : List Char → List Char
  | a :: b :: c :: d :: rest => a :: b :: c :: ',' :: groupChars (d :: rest)
  | l => l

/-- Insert thousands separators into a digit string. -/
def groupDigits (s : String) : String :=
  String.mk (groupChars s.data.reverse).reverse

/-- Drop trailing zero characters. -/
def stripTrailingZeros (s : String) : String :=
  String.mk (s.data.reverse.dropWhile (fun c => c = '0')).reverse

/-- JavaScript `Number.prototype.toLocaleString()` under the en-US default
locale options: thousands grouping and at most three fraction digits,
rounded to nearest with halves away from zero. -/
def toLocaleStringQ (x : ℚ) : String :=
  let m : Nat := (⌊|x| * 1000 + 1 / 2⌋).natAbs
  let fracStr := stripTrailingZeros (padZeros 3 (toString (m % 1000)))
  (if x < 0 then "-" else "") ++ groupDigits (toString (m / 1000)) ++
    (if fracStr = "" then "" else "." ++ fracStr)

/-- Fraction digits of `f` (with `0 ≤ f < 1`), at most `fuel` many, stopping
when the remainder is exactly zero. -/
def fracDigits : Nat → ℚ → List Char
  | 0, _ => []
  | fuel + 1, f =>
    if f = 0 then []
    else
      let f10 := f * 10
      let d : ℤ := ⌊f10⌋
      Char.ofNat (48 + d.toNat) :: fracDigits fuel (f10 - (d : ℚ))

/-- JavaScript `String(value)` on a number: decimal expansion with no
grouping and no trailing zeros; the expansion is cut off after 17 fraction
digits, enough for every double the UI can receive. -/
def jsNumberToString (x : ℚ) : String :=
  let a := |x|
  let ip : Nat := (⌊a⌋).natAbs
  let ds := fracDigits 17 (a - (⌊a⌋ : ℚ))
  (if x < 0 then "-" else "") ++ toString ip ++
    (if ds.isEmpty then "" else "." ++ String.mk ds)

/-- The `value` field of a `MetricItem` (part_003 lines 3 to 7):
`number | string | null`. -/
inductive MetricValue
  | num (q : ℚ)
  | str (s : String)
  | null
deriving DecidableEq, Repr

/-- The declared value formats of `MetricItem.format` (part_003 line 6). -/
inductive ValueFormat
  | number
  | percent
  | ratioFmt
  | currency
  | compact
  | raw
deriving DecidableEq, Repr

/-- `formatCompact` from part_003 lines 14 to 20. -/
def formatCompact (value : ℚ) : String :=
  let a := |value|
  if 10 ^ 12 ≤ a then "$" ++ toFixed 2 (value / 10 ^ 12) ++ "T"
  else if 10 ^ 9 ≤ a then "$" ++ toFixed 2 (value / 10 ^ 9) ++ "B"
  else if 10 ^ 6 ≤ a then "$" ++ toFixed 2 (value / 10 ^ 6) ++ "M"
  else "$" ++ toLocaleStringQ value

/-- `formatValue` from part_003 lines 22 to 39: null (or undefined) renders
as the em-dash placeholder before any format dispatch; strings pass
through; numbers render per format, defaulting to two fixed decimals. -/
def formatValue (value : MetricValue) (format : ValueFormat := ValueFormat.number) : String :=
  match value with
  | .null => "—"
  | .str s => s
  | .num q =>
    match format with
    | .percent => (if 0 ≤ q then "+" else "") ++ toFixed 2 q ++ "%"
    | .ratioFmt => toFixed 2 q
    | .currency => "$" ++ toFixed 2 q
    | .compact => formatCompact q
    | .raw => jsNumberToString q
    | .number => toFixed 2 q

/-- Raw (pre-validation) metric definition as read from a YAML config
(field shapes per part_002 Configuration Schema): a string method name plus
the optional method parameter blocks. -/
structure RawMetricSpec where
  id : String
  source : String
  label : String
  scoring_method : String
  percentile_universe : Option UniverseScope := none
  thresholds : Option (List ThresholdRule) := none
  linear_bounds : Option LinearBounds := none
  weight : ℚ
  bounds : Option (ℚ × ℚ) := none
deriving DecidableEq, Repr

/-- Raw factor configuration as read from a YAML config. -/
structure RawFactorConfig where
  factor : String
  version : Nat
  default_weight : ℚ
  metrics : List RawMetricSpec
deriving DecidableEq, Repr

/-- Raw persona definition: slug and (factor reference, composite weight)
pairs, per §3 Persona. -/
structure RawPersona where
  slug : String
  factors : List (String × ℚ)
deriving DecidableEq, Repr

/-- Validated persona produced by the loader. -/
structure Persona where
  slug : String
  factors : List (String × ℚ)
deriving DecidableEq, Repr

/-- Structured validation failure naming the offending factor, persona or
metric, per §4.6 and §7 ConfigValidationError. -/
inductive ConfigValidationError
  | badMetricWeightSum (factor : String) (total : ℚ)
  | badPersonaWeightSum (slug : String) (total : ℚ)
  | unknownMethod (factor metric name : String)
  | badDefaultCount (factor metric : String) (count : Nat)
  | badLinearBounds (factor metric : String)
  | missingParams (factor metric : String)
deriving DecidableEq, Repr

/-- The recognized scoring method names. -/
def recognizedMethodNames : List String :=
  ["percentile", "percentile_inverse", "threshold", "linear"]

/-- Weight-sum tolerance of §4.6: 1e-6. -/
def weightTol : ℚ := 1 / 1000000

/-- Sum of the metric weights of a raw factor config. -/
def metricWeightSum (ms : List RawMetricSpec) : ℚ := (ms.map fun m => m.weight).sum

/-- Sum of the factor weights of a raw persona. -/
def personaWeightSum (p : RawPersona) : ℚ := (p.factors.map fun f => f.2).sum

/-- Modelled from the spec: §4.6 and §4.3 validation of one metric's method:
the name must be recognized, its parameter block must be present, a
threshold ladder must hold exactly one default rule, linear bounds must
satisfy `output_min ≤ output_max`. -/
def buildMethod (fid : String) (m : RawMetricSpec) : Except ConfigValidationError ScoringMethod :=
  if m.scoring_method = "percentile" then
    match m.percentile_universe with
    | some u => .ok (.percentile u)
    | none => .error (.missingParams fid m.id)
  else if m.scoring_method = "percentile_inverse" then
    match m.percentile_universe with
    | some u => .ok (.percentileInverse u)
    | none => .error (.missingParams fid m.id)
  else if m.scoring_method = "threshold" then
    match m.thresholds with
    | some rules =>
      if defaultCount rules = 1 then .ok (.threshold rules)
      else .error (.badDefaultCount fid m.id (defaultCount rules))
    | none => .error (.missingParams fid m.id)
  else if m.scoring_method = "linear" then
    match m.linear_bounds with
    | some b =>
      if b.output_min ≤ b.output_max then .ok (.linear b)
      else .error (.badLinearBounds fid m.id)
    | none => .error (.missingParams fid m.id)
  else .error (.unknownMethod fid m.id m.scoring_method)

/-- Modelled from the spec: validation and conversion of a factor's metric
list; the first violation aborts the load. -/
def loadMetrics (fid : String) : List RawMetricSpec → Except ConfigValidationError (List MetricSpec)
  | [] => .ok []
  | m :: ms =>
    match buildMethod fid m with
    | .error e => .error e
    | .ok method =>
      match loadMetrics fid ms with
      | .error e => .error e
      | .ok rest =>
        .ok ({ id := m.id, source := m.source, label := m.label,
               method := method, weight := m.weight, bounds := m.bounds } :: rest)

/-- Modelled from the spec: §4.6 validation of one factor config, checking
the metric weight sum against the 1e-6 tolerance and every metric. -/
def loadFactor (f : RawFactorConfig) : Except ConfigValidationError FactorConfig :=
  if |metricWeightSum f.metrics - 1| ≤ weightTol then
    match loadMetrics f.factor f.metrics with
    | .error e => .error e
    | .ok specs =>
      .ok { factor := f.factor, version := f.version,
            default_weight := f.default_weight, metrics := specs }
  else .error (.badMetricWeightSum f.factor (metricWeightSum f.metrics))

/-- Modelled from the spec: validation of every factor config in turn. -/
def loadFactors : List RawFactorConfig → Except ConfigValidationError (List FactorConfig)
  | [] => .ok []
  | f :: fs =>
    match loadFactor f with
    | .error e => .error e
    | .ok c =>
      match loadFactors fs with
      | .error e => .error e
      | .ok rest => .ok (c :: rest)

/-- Modelled from the spec: §4.6 validation of one persona's factor weight
sum against the 1e-6 tolerance. -/
def loadPersona (p : RawPersona) : Except ConfigValidationError Persona :=
  if |personaWeightSum p - 1| ≤ weightTol then
    .ok { slug := p.slug, factors := p.factors }
  else .error (.badPersonaWeightSum p.slug (personaWeightSum p))

/-- Modelled from the spec: validation of every persona in turn. -/
def loadPersonas : List RawPersona → Except ConfigValidationError (List Persona)
  | [] => .ok []
  | p :: ps =>
    match loadPersona p with
    | .error e => .error e
    | .ok v =>
      match loadPersonas ps with
      | .error e => .error e
      | .ok rest => .ok (v :: rest)

/-- Modelled from the spec: §4.6 Config Loader contract
`load(raw_definitions) -> (factor configs, personas)` (loader.py is not in
the repository snapshot).  Eager validation; any violation is a structured
error and nothing is loaded, so the load is atomic by construction. -/
def load (fs : List RawFactorConfig) (ps : List RawPersona) :
    Except ConfigValidationError (List FactorConfig × List Persona) :=
  match loadFactors fs with
  | .error e => .error e
  | .ok cs =>
    match loadPersonas ps with
    | .error e => .error e
    | .ok vs => .ok (cs, vs)

/-- A universe provider with no peer data, for configs whose metrics use
non-percentile methods. -/
def noPeers : UniverseProvider := fun _ _ => []

/-- A three-metric factor config (weights 0.5, 0.3, 0.2) whose metrics score
through unconditional threshold defaults, exercising the §8 missing-data
scenarios. -/
def c1Config : FactorConfig :=
  ⟨"growth", 1, 1/5,
    [⟨"m1", "a", "Metric A", .threshold [.defaultRule 80], 1/2, none⟩,
     ⟨"m2", "b", "Metric B", .threshold [.defaultRule 60], 3/10, none⟩,
     ⟨"m3", "c", "Metric C", .threshold [.defaultRule 40], 1/5, none⟩]⟩

/-- Metrics snapshot where the third metric source of `c1Config` is absent. -/
def c1Metrics : SecurityMetrics := [("a", 1), ("b", 2)]

/-- Fully absent metrics snapshot. -/
def c1AbsentMetrics : SecurityMetrics := []

/-- One-metric factor config scoring 80 whenever its source is present. -/
def c2Growth : FactorConfig :=
  ⟨"growth", 1, 1/5, [⟨"g1", "g", "G", .threshold [.defaultRule 80], 1, none⟩]⟩

/-- One-metric factor config scoring 60 whenever its source is present. -/
def c2Value : FactorConfig :=
  ⟨"value", 1, 1/4, [⟨"v1", "v", "V", .threshold [.defaultRule 60], 1, none⟩]⟩

/-- Profile weighting `c2Growth` and `c2Value` half and half. -/
def c2Profile : Profile := ⟨"default", [⟨c2Growth, 1/2⟩, ⟨c2Value, 1/2⟩]⟩

/-- Snapshot carrying data for the growth source only. -/
def c2MissingMetrics : SecurityMetrics := [("g", 1)]

/-- Snapshot carrying data for both factor sources. -/
def c2FullMetrics : SecurityMetrics := [("g", 1), ("v", 2)]

/-- Two-metric valuation config of the §8 concrete scenario: P/E by inverse
percentile and P/S by percentile, equal weights. -/
def c3ValConfig : FactorConfig :=
  ⟨"valuation", 1, 1/4,
    [⟨"pe", "fundamentals.pe_ttm", "P/E Ratio (TTM)", .percentileInverse .sector, 1/2, none⟩,
     ⟨"ps", "fundamentals.ps_ttm", "P/S Ratio (TTM)", .percentile .sector, 1/2, none⟩]⟩

/-- Raw values 15 and 8 for the §8 valuation scenario. -/
def c3Metrics : SecurityMetrics :=
  [("fundamentals.pe_ttm", 15), ("fundamentals.ps_ttm", 8)]

/-- Peer sets [10,15,20,25] and [4,8,12,16] for the §8 valuation scenario. -/
def c3Up : UniverseProvider := fun src _ =>
  if src = "fundamentals.pe_ttm" then [10, 15, 20, 25]
  else if src = "fundamentals.ps_ttm" then [4, 8, 12, 16]
  else []

/-- Threshold ladder of the §8 concrete scenario:
`[{max:0.3,score:100},{max:0.5,score:85},{default:25}]`. -/
def c4Ladder : List ThresholdRule :=
  [.maxRule (3/10) 100, .maxRule (1/2) 85, .defaultRule 25]

/-- Raw factor config whose metric weights sum to 1.1, violating §4.6. -/
def c5BadFactor : RawFactorConfig :=
  ⟨"growth", 1, 1/5,
    [⟨"m1", "a", "A", "percentile", some .sector, none, none, 1/2, none⟩,
     ⟨"m2", "b", "B", "percentile", some .sector, none, none, 3/5, none⟩]⟩

/-- Raw factor config passing every §4.6 validation. -/
def c5GoodFactor : RawFactorConfig :=
  ⟨"growth", 1, 1/5,
    [⟨"m1", "a", "A", "percentile", some .sector, none, none, 1/2, none⟩,
     ⟨"m2", "b", "B", "threshold", none, some [.defaultRule 50], none, 1/2, none⟩]⟩

/-- Raw persona passing the §4.6 weight-sum validation. -/
def c5GoodPersona : RawPersona := ⟨"balanced", [("growth", 1)]⟩

/-- Linear bounds of the §8 concrete scenario: input −0.2 to 0.4 mapped onto
0 to 100. -/
def c6B : LinearBounds := ⟨-(1/5), 2/5, 0, 100⟩

/-- A component with a present score (60, weight 0.5, contribution 30). -/
def c7Present : ScoreComponent := ⟨"m1", "A", some 1, some 60, 1/2, some 30⟩

/-- A component whose metric was absent: no score, no contribution. -/
def c7Absent : ScoreComponent := ⟨"m2", "B", none, none, 1/2, none⟩

/-- Factor result with one present and one absent component. -/
def c7Result : FactorResult := ⟨"growth", some 60, [c7Present, c7Absent]⟩

/-- Present component with contribution 25. -/
def c7A : ScoreComponent := ⟨"m1", "A", some 1, some 50, 1/2, some 25⟩

/-- Present component with contribution 22.5. -/
def c7B : ScoreComponent := ⟨"m2", "B", some 2, some 90, 1/4, some (45/2)⟩

/-- Present component with contribution 10. -/
def c7C : ScoreComponent := ⟨"m3", "C", some 3, some 40, 1/4, some 10⟩

/-- Factor result whose three components all have present contributions. -/
def c7OkResult : FactorResult := ⟨"growth", some (115/2), [c7C, c7A, c7B]⟩

/-- The context `generate_explanation` builds for `c7OkResult`: contribution
order 25, 22.5, 10. -/
def c7Ctx : ExplanationContext :=
  ⟨some (115/2), c7A, c7B, c7C, [c7A, c7B, c7C]⟩

lemma rankCounts_eq (raw : ℚ) (peers : List ℚ) :
    rankCounts raw peers =
      ((peers.filter fun p => p < raw).length, (peers.filter fun p => p = raw).length) := by
  induction peers with
  | nil => rfl
  | cons p ps ih =>
    simp only [rankCounts, ih, List.filter_cons]
    by_cases h1 : p < raw
    · have h2 : ¬ p = raw := fun he => absurd (he ▸ h1) (lt_irrefl raw)
      simp [h1, h2]
    · by_cases h2 : p = raw
      · simp [h1, h2]
      · simp [h1, h2]

lemma filter_length_trichotomy (raw : ℚ) (peers : List ℚ) :
    (peers.filter fun p => p < raw).length + (peers.filter fun p => p = raw).length +
      (peers.filter fun p => raw < p).length = peers.length := by
  induction peers with
  | nil => rfl
  | cons p ps ih =>
    rcases lt_trichotomy p raw with h | h | h
    · have h2 : ¬ p = raw := fun he => absurd (he ▸ h) (lt_irrefl raw)
      have h3 : ¬ raw < p := not_lt.2 (le_of_lt h)
      simp [List.filter_cons, h, h2, h3]
      omega
    · subst h
      simp [List.filter_cons, lt_irrefl]
      omega
    · have h2 : ¬ p < raw := not_lt.2 (le_of_lt h)
      have h3 : ¬ p = raw := fun he => absurd (he ▸ h) (lt_irrefl raw)
      simp [List.filter_cons, h, h2, h3]
      omega

lemma percentile_score_formula (raw : ℚ) (peers : List ℚ) (h : peers ≠ []) :
    percentile_score raw peers =
      some ((((peers.filter fun p => p < raw).length : ℚ) +
        (1 / 2) * ((peers.filter fun p => p = raw).length : ℚ)) / (peers.length : ℚ) * 100) := by
  cases peers with
  | nil => exact absurd rfl h
  | cons p ps =>
    simp only [percentile_score, List.isEmpty_cons, rankCounts_eq, Bool.false_eq_true, if_false]

/-- C3: the percentile method scores a raw value against a non-empty peer
set as (count strictly less + 0.5 × count equal) / total × 100, returns
`none` on the empty peer set, scores 15 against [10,15,20,25] and 8 against
[4,8,12,16] both at 37.5, and the two-metric equal-weight valuation factor
(P/E percentile-inverse, P/S percentile) comes out at 50. -/
theorem percentile_midrank (raw : ℚ) (peers : List ℚ) :
    (peers ≠ [] → percentile_score raw peers =
      some ((((peers.filter fun p => p < raw).length : ℚ) +
        (1 / 2) * ((peers.filter fun p => p = raw).length : ℚ)) / (peers.length : ℚ) * 100)) ∧
    percentile_score raw [] = none ∧
    percentile_score 15 [10, 15, 20, 25] = some (75 / 2) ∧
    percentile_score 8 [4, 8, 12, 16] = some (75 / 2) ∧
    (calculate_factor_score c3Metrics c3ValConfig c3Up).score = some 50 := by
  refine ⟨percentile_score_formula raw peers, rfl, ?_, ?_, ?_⟩
  · norm_num [percentile_score, rankCounts]
  · norm_num [percentile_score, rankCounts]
  · have hpe : resolve c3Metrics "fundamentals.pe_ttm" = some 15 := rfl
    have hps : resolve c3Metrics "fundamentals.ps_ttm" = some 8 := rfl
    have hupe : c3Up "fundamentals.pe_ttm" UniverseScope.sector = [10, 15, 20, 25] := rfl
    have hups : c3Up "fundamentals.ps_ttm" UniverseScope.sector = [4, 8, 12, 16] := rfl
    norm_num [calculate_factor_score, c3ValConfig, scoreMetric, hpe, hps, hupe, hups,
      aggregateScore, aggregateAcc, applyBounds, dispatchMethod, percentile_score,
      percentile_inverse_score, rankCounts]

/-- Witness for C3 at raw 15 against the peer set [10,15,20,25]. -/
theorem percentile_midrank_witness : percentile_score 15 [10, 15, 20, 25] = some (75 / 2) := by
  have h := (percentile_midrank 15 [10, 15, 20, 25]).1 (by simp)
  rw [h]
  norm_num

/-- C8: the percentile-inverse score is 100 minus the percentile score over
the same peers (and hence, on a non-empty peer set, the mid-rank formula
counted from above). -/
theorem percentile_inverse_complement (raw : ℚ) (peers : List ℚ) :
    percentile_inverse_score raw peers = (percentile_score raw peers).map (fun p => 100 - p) ∧
    (peers ≠ [] → percentile_inverse_score raw peers =
      some ((((peers.filter fun p => raw < p).length : ℚ) +
        (1 / 2) * ((peers.filter fun p => p = raw).length : ℚ)) / (peers.length : ℚ) * 100)) ∧
    percentile_inverse_score raw [] = none := by
  refine ⟨rfl, ?_, rfl⟩
  intro h
  rw [percentile_inverse_score, percentile_score_formula raw peers h, Option.map_some']
  have hn : (0 : ℚ) < (peers.length : ℚ) := by
    cases peers with
    | nil => exact absurd rfl h
    | cons p ps => exact_mod_cast Nat.succ_pos ps.length
  have key : ((peers.filter fun p => p < raw).length : ℚ) +
      ((peers.filter fun p => p = raw).length : ℚ) +
      ((peers.filter fun p => raw < p).length : ℚ) = (peers.length : ℚ) := by
    exact_mod_cast congrArg (Nat.cast : Nat → ℚ) (filter_length_trichotomy raw peers)
  congr 1
  field_simp
  linarith [key]

/-- Witness for C8 at raw 15 against the peer set [10,15,20,25]. -/
theorem percentile_inverse_complement_witness :
    percentile_inverse_score 15 [10, 15, 20, 25] = some (125 / 2) := by
  have h := (percentile_inverse_complement 15 [10, 15, 20, 25]).2.1 (by simp)
  rw [h]
  norm_num [List.filter]

lemma threshold_score_eq_find (raw : ℚ) (rules : List ThresholdRule) :
    threshold_score raw rules = (rules.find? (ruleMatches raw)).map ruleScore := by
  induction rules with
  | nil => rfl
  | cons r rs ih =>
    simp only [threshold_score, List.find?]
    cases h : ruleMatches raw r
    · simpa [h] using ih
    · simp [h]

lemma threshold_score_total (raw : ℚ) (rules : List ThresholdRule)
    (hd : defaultCount rules ≠ 0) : (threshold_score raw rules).isSome = true := by
  induction rules with
  | nil => simp [defaultCount] at hd
  | cons r rs ih =>
    simp only [threshold_score]
    cases hm : ruleMatches raw r
    · cases r with
      | defaultRule s => simp [ruleMatches] at hm
      | minRule b s =>
        refine ih ?_
        simpa [defaultCount, List.countP_cons] using hd
      | maxRule b s =>
        refine ih ?_
        simpa [defaultCount, List.countP_cons] using hd
    · simp

/-- C4: the threshold method returns the score of the first rule in declared
order whose condition matches, any ladder containing a default rule yields a
score for every raw value, and the ladder
[{max 0.3, 100}, {max 0.5, 85}, {default 25}] scores 85 at raw 0.4 and 25
at raw 0.9. -/
theorem threshold_first_match (raw : ℚ) (rules : List ThresholdRule) :
    threshold_score raw rules = (rules.find? (ruleMatches raw)).map ruleScore ∧
    (defaultCount rules ≠ 0 → (threshold_score raw rules).isSome = true) ∧
    threshold_score (2 / 5) c4Ladder = some 85 ∧
    threshold_score (9 / 10) c4Ladder = some 25 := by
  refine ⟨threshold_score_eq_find raw rules, threshold_score_total raw rules, ?_, ?_⟩
  · norm_num [threshold_score, c4Ladder, ruleMatches, ruleScore]
  · norm_num [threshold_score, c4Ladder, ruleMatches, ruleScore]

/-- Witness for C4: the scenario ladder has a default rule, so raw 3.5 gets
a score. -/
theorem threshold_first_match_witness : (threshold_score (7 / 2) c4Ladder).isSome = true :=
  (threshold_first_match (7 / 2) c4Ladder).2.1 (by simp [defaultCount, c4Ladder])

lemma clampQ_mem (lo hi x : ℚ) (h : lo ≤ hi) :
    lo ≤ clampQ lo hi x ∧ clampQ lo hi x ≤ hi :=
  ⟨le_max_left lo _, max_le h (min_le_left hi x)⟩

/-- C6: on any linear bounds with `output_min ≤ output_max` (the shape the
loader admits), the linear score lies inside [output_min, output_max] for
every raw value, a degenerate input range gives `output_min`, and the §8
scenario bounds map the out-of-range raw 1.0 to the clamped score 100. -/
theorem linear_score_clamped (raw : ℚ) (b : LinearBounds)
    (h : b.output_min ≤ b.output_max) :
    b.output_min ≤ linear_score raw b ∧ linear_score raw b ≤ b.output_max ∧
    (b.input_max = b.input_min → linear_score raw b = b.output_min) ∧
    linear_score 1 c6B = 100 := by
  by_cases hdeg : b.input_max = b.input_min
  · refine ⟨?_, ?_, fun _ => ?_, ?_⟩
    · simp [linear_score, hdeg]
    · simp [linear_score, hdeg, h]
    · simp [linear_score, hdeg]
    · norm_num [linear_score, c6B, clampQ]
  · refine ⟨?_, ?_, fun hx => absurd hx hdeg, ?_⟩
    · simpa [linear_score, hdeg] using (clampQ_mem b.output_min b.output_max _ h).1
    · simpa [linear_score, hdeg] using (clampQ_mem b.output_min b.output_max _ h).2
    · norm_num [linear_score, c6B, clampQ]

/-- Witness for C6 at the scenario bounds and raw 7/3. -/
theorem linear_score_clamped_witness :
    c6B.output_min ≤ linear_score (7 / 3) c6B ∧ linear_score (7 / 3) c6B ≤ c6B.output_max :=
  ⟨(linear_score_clamped (7 / 3) c6B (by norm_num [c6B])).1,
   (linear_score_clamped (7 / 3) c6B (by norm_num [c6B])).2.1⟩

lemma scoreMetric_weight (metrics : SecurityMetrics) (up : UniverseProvider) (spec : MetricSpec) :
    (scoreMetric metrics up spec).weight = spec.weight := by
  unfold scoreMetric
  cases resolve metrics spec.source <;> rfl

lemma aggregateAcc_eq (cs : List ScoreComponent) :
    aggregateAcc cs =
      (((cs.filter fun c => c.score.isSome).map fun c => c.score.getD 0 * c.weight).sum,
       ((cs.filter fun c => c.score.isSome).map fun c => c.weight).sum) := by
  induction cs with
  | nil => rfl
  | cons c cs ih =>
    simp only [aggregateAcc, ih, List.filter_cons]
    cases hs : c.score with
    | none => simp [hs]
    | some s => simp [hs, add_comm]

lemma present_weight_sum_zero_iff (cs : List ScoreComponent)
    (hw : ∀ c ∈ cs, 0 < c.weight) :
    ((cs.filter fun c => c.score.isSome).map fun c => c.weight).sum = 0 ↔
      cs.filter (fun c => c.score.isSome) = [] := by
  constructor
  · intro h0
    by_contra hne
    have hpos : 0 < ((cs.filter fun c => c.score.isSome).map fun c => c.weight).sum := by
      apply List.sum_pos
      · intro x hx
        obtain ⟨c, hc, rfl⟩ := List.mem_map.1 hx
        exact hw c (List.mem_of_mem_filter hc)
      · simpa [List.map_eq_nil_iff] using hne
    exact absurd h0 (ne_of_gt hpos)
  · intro h
    simp [h]

/-- C1: the factor score is the weighted mean of the components with a
present score only, with absent components excluded from numerator and
denominator alike, and it is `none` exactly when no component has a present
score. -/
theorem factor_score_weighted_mean (metrics : SecurityMetrics) (config : FactorConfig)
    (up : UniverseProvider) (hw : ∀ m ∈ config.metrics, 0 < m.weight) :
    ((calculate_factor_score metrics config up).score = none ↔
      presentComponents (calculate_factor_score metrics config up) = []) ∧
    (presentComponents (calculate_factor_score metrics config up) ≠ [] →
      (calculate_factor_score metrics config up).score =
        some (((presentComponents (calculate_factor_score metrics config up)).map
                 fun c => c.score.getD 0 * c.weight).sum /
              ((presentComponents (calculate_factor_score metrics config up)).map
                 fun c => c.weight).sum)) := by
  have hwc : ∀ c ∈ config.metrics.map (scoreMetric metrics up), 0 < c.weight := by
    intro c hc
    obtain ⟨m, hm, rfl⟩ := List.mem_map.1 hc
    rw [scoreMetric_weight]
    exact hw m hm
  have hpres : presentComponents (calculate_factor_score metrics config up) =
      (config.metrics.map (scoreMetric metrics up)).filter (fun c => c.score.isSome) := rfl
  have hscore : (calculate_factor_score metrics config up).score =
      aggregateScore (config.metrics.map (scoreMetric metrics up)) := rfl
  rw [hpres, hscore]
  set cs := config.metrics.map (scoreMetric metrics up) with hcs
  have hzero := present_weight_sum_zero_iff cs hwc
  constructor
  · by_cases hd : ((cs.filter fun c => c.score.isSome).map fun c => c.weight).sum = 0
    · simp [aggregateScore, aggregateAcc_eq, hd, hzero.1 hd]
    · have : cs.filter (fun c => c.score.isSome) ≠ [] := fun he => hd (hzero.2 he)
      simp [aggregateScore, aggregateAcc_eq, hd, this]
  · intro hne
    have hd : ((cs.filter fun c => c.score.isSome).map fun c => c.weight).sum ≠ 0 :=
      fun h0 => hne (hzero.1 h0)
    simp [aggregateScore, aggregateAcc_eq, hd]

/-- Witness for C1: with the third metric of `c1Config` absent, the factor
score is the weighted mean of the other two renormalized (72.5), and with
every metric absent it is `none`. -/
theorem factor_score_weighted_mean_witness :
    (calculate_factor_score c1Metrics c1Config noPeers).score = some (145 / 2) ∧
    (calculate_factor_score c1AbsentMetrics c1Config noPeers).score = none := by
  constructor
  · have h := (factor_score_weighted_mean c1Metrics c1Config noPeers
      (by norm_num [c1Config])).2
    have ha : resolve c1Metrics "a" = some 1 := rfl
    have hb : resolve c1Metrics "b" = some 2 := rfl
    have hc : resolve c1Metrics "c" = none := rfl
    have hp : presentComponents (calculate_factor_score c1Metrics c1Config noPeers) ≠ [] := by
      norm_num [presentComponents, calculate_factor_score, c1Config, scoreMetric, ha, hb, hc,
        applyBounds, dispatchMethod, threshold_score, ruleMatches, ruleScore]
      exact List.cons_ne_nil _ _
    rw [h hp]
    norm_num [presentComponents, calculate_factor_score, c1Config, scoreMetric, ha, hb, hc,
      applyBounds, dispatchMethod, threshold_score, ruleMatches, ruleScore]
  · have h := (factor_score_weighted_mean c1AbsentMetrics c1Config noPeers
      (by norm_num [c1Config])).1
    apply h.2
    have ha : resolve c1AbsentMetrics "a" = none := rfl
    have hb : resolve c1AbsentMetrics "b" = none := rfl
    have hc : resolve c1AbsentMetrics "c" = none := rfl
    norm_num [presentComponents, calculate_factor_score, c1Config, scoreMetric, ha, hb, hc]

lemma weightedTerms_all_present (metrics : SecurityMetrics) (up : UniverseProvider)
    (fs : List ProfileFactor)
    (h : ∀ f ∈ fs, ((calculate_factor_score metrics f.config up).score).isSome = true) :
    weightedTerms metrics up fs =
      some (fs.map fun f => (calculate_factor_score metrics f.config up).score.getD 0 * f.weight) := by
  induction fs with
  | nil => rfl
  | cons f fs ih =>
    have hf := h f (List.mem_cons_self f fs)
    obtain ⟨s, hs⟩ := Option.isSome_iff_exists.1 hf
    have ht := ih fun g hg => h g (List.mem_cons_of_mem f hg)
    simp [weightedTerms, hs, ht]

lemma weightedTerms_absent (metrics : SecurityMetrics) (up : UniverseProvider)
    (fs : List ProfileFactor)
    (h : ∃ f ∈ fs, (calculate_factor_score metrics f.config up).score = none) :
    weightedTerms metrics up fs = none := by
  induction fs with
  | nil => simp at h
  | cons f fs ih =>
    rcases h with ⟨g, hg, hnone⟩
    rcases List.mem_cons.1 hg with rfl | hmem
    · simp [weightedTerms, hnone]
    · have ht := ih ⟨g, hmem, hnone⟩
      cases hc : (calculate_factor_score metrics f.config up).score <;>
        simp [weightedTerms, ht, hc]

/-- C2 (amended): the composite calculator multiplies every factor score of
the profile by its profile weight and sums with no exclusion of absent
factors and no weight renormalization, rounding the sum to one decimal;
whenever any factor score is absent the computation fails with a TypeError
instead of skipping the factor or returning an absent overall score. -/
theorem composite_sum_over_all_factors (metrics : SecurityMetrics) (up : UniverseProvider)
    (profile : Profile) :
    ((∀ f ∈ profile.factors, ((calculate_factor_score metrics f.config up).score).isSome = true) →
      calculate_composite_score metrics up profile =
        .ok { overall_score := pyRound1 ((profile.factors.map fun f =>
                 (calculate_factor_score metrics f.config up).score.getD 0 * f.weight).sum),
              factor_scores := profile.factors.map fun f =>
                (f.config.factor, (calculate_factor_score metrics f.config up).score),
              profile_used := profile.name }) ∧
    ((∃ f ∈ profile.factors, (calculate_factor_score metrics f.config up).score = none) →
      calculate_composite_score metrics up profile =
        .error "TypeError: unsupported operand type(s) for *: 'NoneType' and 'float'") := by
  constructor
  · intro h
    rw [calculate_composite_score, weightedTerms_all_present metrics up profile.factors h]
  · intro h
    rw [calculate_composite_score, weightedTerms_absent metrics up profile.factors h]

/-- Counterexample for C2: under `c2Profile` the growth factor scores 80 but
the value factor's only metric is absent, and instead of renormalizing over
the present factor (or returning an absent overall score) the composite
calculation fails with a TypeError. -/
theorem composite_absent_factor_error :
    calculate_composite_score c2MissingMetrics noPeers c2Profile =
      .error "TypeError: unsupported operand type(s) for *: 'NoneType' and 'float'" ∧
    (calculate_factor_score c2MissingMetrics c2Growth noPeers).score = some 80 := by
  have hg : resolve c2MissingMetrics "g" = some 1 := rfl
  have hv : resolve c2MissingMetrics "v" = none := rfl
  constructor
  · norm_num [calculate_composite_score, weightedTerms, calculate_factor_score, c2Profile,
      c2Growth, c2Value, scoreMetric, hg, hv, aggregateScore, aggregateAcc, applyBounds,
      dispatchMethod, threshold_score, ruleMatches, ruleScore]
  · norm_num [calculate_factor_score, c2Growth, scoreMetric, hg, aggregateScore, aggregateAcc,
      applyBounds, dispatchMethod, threshold_score, ruleMatches, ruleScore]

/-- Witness for C2 with both factor sources present: overall is the rounded
plain weighted sum 70. -/
theorem composite_sum_over_all_factors_witness :
    calculate_composite_score c2FullMetrics noPeers c2Profile =
      .ok { overall_score := 70,
            factor_scores := [("growth", some 80), ("value", some 60)],
            profile_used := "default" } := by
  have hg : resolve c2FullMetrics "g" = some 1 := rfl
  have hv : resolve c2FullMetrics "v" = some 2 := rfl
  have h := (composite_sum_over_all_factors c2FullMetrics noPeers c2Profile).1 (by
    norm_num [calculate_factor_score, c2Profile, c2Growth, c2Value, scoreMetric, hg, hv,
      aggregateScore, aggregateAcc, applyBounds, dispatchMethod, threshold_score,
      ruleMatches, ruleScore])
  rw [h]
  norm_num [calculate_factor_score, c2Profile, c2Growth, c2Value, scoreMetric, hg, hv,
    aggregateScore, aggregateAcc, applyBounds, dispatchMethod, threshold_score,
    ruleMatches, ruleScore, pyRound1, pyRoundHalfEven]

lemma buildMethod_ok_recognized (fid : String) (m : RawMetricSpec)
    (h : (buildMethod fid m).isOk = true) :
    m.scoring_method ∈ recognizedMethodNames := by
  unfold buildMethod at h
  by_cases h1 : m.scoring_method = "percentile"
  · simp [recognizedMethodNames, h1]
  · by_cases h2 : m.scoring_method = "percentile_inverse"
    · simp [recognizedMethodNames, h2]
    · by_cases h3 : m.scoring_method = "threshold"
      · simp [recognizedMethodNames, h3]
      · by_cases h4 : m.scoring_method = "linear"
        · simp [recognizedMethodNames, h4]
        · simp [h1, h2, h3, h4, Except.isOk, Except.toBool] at h

lemma buildMethod_ok_default_count (fid : String) (m : RawMetricSpec)
    (h : (buildMethod fid m).isOk = true) (rules : List ThresholdRule)
    (hr : m.thresholds = some rules) (hname : m.scoring_method = "threshold") :
    defaultCount rules = 1 := by
  unfold buildMethod at h
  have h1 : ¬ m.scoring_method = "percentile" := by simp [hname]
  have h2 : ¬ m.scoring_method = "percentile_inverse" := by simp [hname]
  rw [if_neg h1, if_neg h2, if_pos hname, hr] at h
  by_cases hd : defaultCount rules = 1
  · exact hd
  · simp [hd, Except.isOk, Except.toBool] at h

lemma loadMetrics_ok_each (fid : String) (ms : List RawMetricSpec)
    (h : (loadMetrics fid ms).isOk = true) :
    ∀ m ∈ ms, (buildMethod fid m).isOk = true := by
  induction ms with
  | nil => intro m hm; simp at hm
  | cons m ms ih =>
    intro m' hm'
    unfold loadMetrics at h
    cases hb : buildMethod fid m with
    | error e => rw [hb] at h; simp [Except.isOk, Except.toBool] at h
    | ok method =>
      rw [hb] at h
      cases hrest : loadMetrics fid ms with
      | error e => rw [hrest] at h; simp [Except.isOk, Except.toBool] at h
      | ok rest =>
        rcases List.mem_cons.1 hm' with rfl | hmem
        · simp [hb, Except.isOk, Except.toBool]
        · exact ih (by simp [hrest, Except.isOk, Except.toBool]) m' hmem

lemma loadFactor_ok_parts (f : RawFactorConfig) (h : (loadFactor f).isOk = true) :
    |metricWeightSum f.metrics - 1| ≤ weightTol ∧
      (loadMetrics f.factor f.metrics).isOk = true := by
  unfold loadFactor at h
  by_cases hw : |metricWeightSum f.metrics - 1| ≤ weightTol
  · refine ⟨hw, ?_⟩
    rw [if_pos hw] at h
    cases hm : loadMetrics f.factor f.metrics with
    | error e => rw [hm] at h; simp [Except.isOk, Except.toBool] at h
    | ok specs => simp [Except.isOk, Except.toBool]
  · rw [if_neg hw] at h
    simp [Except.isOk, Except.toBool] at h

lemma loadFactors_ok_each (fs : List RawFactorConfig)
    (h : (loadFactors fs).isOk = true) :
    ∀ f ∈ fs, (loadFactor f).isOk = true := by
  induction fs with
  | nil => intro f hf; simp at hf
  | cons f fs ih =>
    intro f' hf'
    unfold loadFactors at h
    cases hb : loadFactor f with
    | error e => rw [hb] at h; simp [Except.isOk, Except.toBool] at h
    | ok c =>
      rw [hb] at h
      cases hrest : loadFactors fs with
      | error e => rw [hrest] at h; simp [Except.isOk, Except.toBool] at h
      | ok rest =>
        rcases List.mem_cons.1 hf' with rfl | hmem
        · simp [hb, Except.isOk, Except.toBool]
        · exact ih (by simp [hrest, Except.isOk, Except.toBool]) f' hmem

lemma loadFactors_ok_length (fs : List RawFactorConfig) (r : List FactorConfig)
    (h : loadFactors fs = .ok r) : r.length = fs.length := by
  induction fs generalizing r with
  | nil =>
    unfold loadFactors at h
    cases h
    rfl
  | cons f fs ih =>
    unfold loadFactors at h
    cases hb : loadFactor f with
    | error e => rw [hb] at h; cases h
    | ok c =>
      rw [hb] at h
      cases hrest : loadFactors fs with
      | error e => rw [hrest] at h; cases h
      | ok rest =>
        rw [hrest] at h
        cases h
        simp [ih rest hrest]

lemma loadPersonas_ok_each (ps : List RawPersona)
    (h : (loadPersonas ps).isOk = true) :
    ∀ p ∈ ps, (loadPersona p).isOk = true := by
  induction ps with
  | nil => intro p hp; simp at hp
  | cons p ps ih =>
    intro p' hp'
    unfold loadPersonas at h
    cases hb : loadPersona p with
    | error e => rw [hb] at h; simp [Except.isOk, Except.toBool] at h
    | ok v =>
      rw [hb] at h
      cases hrest : loadPersonas ps with
      | error e => rw [hrest] at h; simp [Except.isOk, Except.toBool] at h
      | ok rest =>
        rcases List.mem_cons.1 hp' with rfl | hmem
        · simp [hb, Except.isOk, Except.toBool]
        · exact ih (by simp [hrest, Except.isOk, Except.toBool]) p' hmem

lemma loadPersona_ok_weight (p : RawPersona) (h : (loadPersona p).isOk = true) :
    |personaWeightSum p - 1| ≤ weightTol := by
  unfold loadPersona at h
  by_cases hw : |personaWeightSum p - 1| ≤ weightTol
  · exact hw
  · rw [if_neg hw] at h
    simp [Except.isOk, Except.toBool] at h

lemma loadPersonas_ok_length (ps : List RawPersona) (r : List Persona)
    (h : loadPersonas ps = .ok r) : r.length = ps.length := by
  induction ps generalizing r with
  | nil =>
    unfold loadPersonas at h
    cases h
    rfl
  | cons p ps ih =>
    unfold loadPersonas at h
    cases hb : loadPersona p with
    | error e => rw [hb] at h; cases h
    | ok v =>
      rw [hb] at h
      cases hrest : loadPersonas ps with
      | error e => rw [hrest] at h; cases h
      | ok rest =>
        rw [hrest] at h
        cases h
        simp [ih rest hrest]

lemma load_ok_split (fs : List RawFactorConfig) (ps : List RawPersona)
    (h : (load fs ps).isOk = true) :
    (loadFactors fs).isOk = true ∧ (loadPersonas ps).isOk = true := by
  unfold load at h
  cases hf : loadFactors fs with
  | error e => rw [hf] at h; simp [Except.isOk, Except.toBool] at h
  | ok cs =>
    rw [hf] at h
    cases hp : loadPersonas ps with
    | error e => rw [hp] at h; simp [Except.isOk, Except.toBool] at h
    | ok vs => exact ⟨by simp [Except.isOk, Except.toBool], by simp [Except.isOk, Except.toBool]⟩

/-- C5: if the whole configuration set loads, then every factor's metric
weights sum to 1 within 1e-6, every persona's factor weights sum to 1
within 1e-6, every scoring method name is recognized, and every declared
threshold ladder of a threshold metric has exactly one default rule —
equivalently the loader rejects any configuration violating one of these;
and a successful load is atomic, returning every factor and persona. -/
theorem config_loader_validation (fs : List RawFactorConfig) (ps : List RawPersona) :
    ((load fs ps).isOk = true →
      (∀ f ∈ fs, |metricWeightSum f.metrics - 1| ≤ weightTol) ∧
      (∀ p ∈ ps, |personaWeightSum p - 1| ≤ weightTol) ∧
      (∀ f ∈ fs, ∀ m ∈ f.metrics, m.scoring_method ∈ recognizedMethodNames) ∧
      (∀ f ∈ fs, ∀ m ∈ f.metrics, ∀ rules, m.thresholds = some rules →
        m.scoring_method = "threshold" → defaultCount rules = 1)) ∧
    (∀ r, load fs ps = .ok r → r.1.length = fs.length ∧ r.2.length = ps.length) := by
  constructor
  · intro h
    obtain ⟨hfs, hps⟩ := load_ok_split fs ps h
    refine ⟨?_, ?_, ?_, ?_⟩
    · intro f hf
      exact (loadFactor_ok_parts f (loadFactors_ok_each fs hfs f hf)).1
    · intro p hp
      exact loadPersona_ok_weight p (loadPersonas_ok_each ps hps p hp)
    · intro f hf m hm
      exact buildMethod_ok_recognized f.factor m
        (loadMetrics_ok_each f.factor f.metrics
          (loadFactor_ok_parts f (loadFactors_ok_each fs hfs f hf)).2 m hm)
    · intro f hf m hm rules hr hname
      exact buildMethod_ok_default_count f.factor m
        (loadMetrics_ok_each f.factor f.metrics
          (loadFactor_ok_parts f (loadFactors_ok_each fs hfs f hf)).2 m hm) rules hr hname
  · intro r hr
    unfold load at hr
    cases hf : loadFactors fs with
    | error e => rw [hf] at hr; cases hr
    | ok cs =>
      rw [hf] at hr
      cases hp : loadPersonas ps with
      | error e => rw [hp] at hr; cases hr
      | ok vs =>
        rw [hp] at hr
        cases hr
        exact ⟨loadFactors_ok_length fs cs hf, loadPersonas_ok_length ps vs hp⟩

/-- Witness for C5: the valid config set loads whole, and the config whose
metric weights sum to 1.1 is rejected. -/
theorem config_loader_validation_witness :
    (load [c5GoodFactor] [c5GoodPersona]).isOk = true ∧
    (load [c5BadFactor] []).isOk = false := by
  have hw1 : |metricWeightSum c5GoodFactor.metrics - 1| ≤ weightTol := by
    norm_num [metricWeightSum, c5GoodFactor, weightTol]
  have hw2 : |personaWeightSum c5GoodPersona - 1| ≤ weightTol := by
    norm_num [personaWeightSum, c5GoodPersona, weightTol]
  have hok : (load [c5GoodFactor] [c5GoodPersona]).isOk = true := by
    unfold load loadFactors loadFactor loadPersonas loadPersona
    rw [if_pos hw1, if_pos hw2]
    rfl
  have hbadw : ¬ (|metricWeightSum c5BadFactor.metrics - 1| ≤ weightTol) := by
    have hsum : metricWeightSum c5BadFactor.metrics = 11 / 10 := by
      norm_num [metricWeightSum, c5BadFactor]
    rw [hsum, show (11 : ℚ) / 10 - 1 = 1 / 10 by norm_num,
      abs_of_nonneg (by norm_num : (0 : ℚ) ≤ 1 / 10)]
    norm_num [weightTol]
  refine ⟨hok, ?_⟩
  cases hbad : (load [c5BadFactor] []).isOk
  · rfl
  · exact absurd (((config_loader_validation [c5BadFactor] []).1 hbad).1 c5BadFactor
      (by simp)) hbadw

lemma enumFrom_rank_map_comp (n : Nat) (cs : List ScoreComponent) :
    (((cs.enumFrom n).map fun p => (⟨p.1, contributionKey p.2, p.2⟩ : Ranked)).map
      fun x => x.comp) = cs := by
  induction cs generalizing n with
  | nil => rfl
  | cons c cs ih => simp [List.enumFrom_cons, ih]

lemma rankComponents_map_comp (cs : List ScoreComponent) :
    ((rankComponents cs).map fun x => x.comp) = cs := by
  unfold rankComponents List.enum
  exact enumFrom_rank_map_comp 0 cs

lemma rankComponents_key (cs : List ScoreComponent) :
    ∀ x ∈ rankComponents cs, x.key = contributionKey x.comp := by
  intro x hx
  obtain ⟨p, _, rfl⟩ := List.mem_map.1 hx
  rfl

lemma sortedRanked_sorted (cs : List ScoreComponent) :
    List.Sorted rankedBefore (sortedRanked cs) :=
  List.sorted_insertionSort rankedBefore (rankComponents cs)

lemma sortedRanked_perm (cs : List ScoreComponent) :
    (sortedRanked cs).Perm (rankComponents cs) :=
  List.perm_insertionSort rankedBefore (rankComponents cs)

lemma sortComponents_perm (cs : List ScoreComponent) :
    (sortComponents cs).Perm cs := by
  have h := (sortedRanked_perm cs).map fun x => x.comp
  rw [rankComponents_map_comp] at h
  exact h

lemma sortedRanked_key (cs : List ScoreComponent) :
    ∀ x ∈ sortedRanked cs, x.key = contributionKey x.comp := fun x hx =>
  rankComponents_key cs x ((sortedRanked_perm cs).mem_iff.1 hx)

lemma sortComponents_pairwise (cs : List ScoreComponent) :
    List.Pairwise (fun c d => contributionKey d ≤ contributionKey c) (sortComponents cs) := by
  have hs : List.Pairwise rankedBefore (sortedRanked cs) := sortedRanked_sorted cs
  have hk := sortedRanked_key cs
  have hp : List.Pairwise
      (fun x y : Ranked => contributionKey y.comp ≤ contributionKey x.comp) (sortedRanked cs) := by
    refine List.Pairwise.imp_of_mem ?_ hs
    intro a b ha hb hab
    rw [← hk a ha, ← hk b hb]
    rcases hab with h | ⟨h, _⟩
    · exact le_of_lt h
    · exact le_of_eq h.symm
  unfold sortComponents
  exact List.pairwise_map.2 hp

lemma lastOf_mem (x : α) (xs : List α) : lastOf x xs ∈ x :: xs := by
  induction xs generalizing x with
  | nil => simp [lastOf]
  | cons y ys ih => exact List.mem_cons_of_mem x (ih y)

lemma pairwise_lastOf {S : α → α → Prop} (x : α) (xs : List α)
    (hp : List.Pairwise S (x :: xs)) :
    ∀ y ∈ x :: xs, y = lastOf x xs ∨ S y (lastOf x xs) := by
  induction xs generalizing x with
  | nil =>
    intro y hy
    rcases List.mem_singleton.1 hy with rfl
    exact Or.inl rfl
  | cons z zs ih =>
    intro y hy
    have hx := (List.pairwise_cons.1 hp).1
    have hp' := (List.pairwise_cons.1 hp).2
    rcases List.mem_cons.1 hy with rfl | hmem
    · exact Or.inr (hx (lastOf z zs) (lastOf_mem z zs))
    · exact ih z hp' y hmem

lemma generate_explanation_fails (result : FactorResult)
    (h : result.components.length < 2 ∨ ∃ c ∈ result.components, c.contribution = none) :
    (generate_explanation result).isOk = false := by
  unfold generate_explanation
  by_cases h1 : result.components.length < 2
  · simp [h1, Except.isOk, Except.toBool]
  · rcases h with h | ⟨c, hc, hnone⟩
    · exact absurd h h1
    · have h2 : result.components.any (fun c => c.contribution.isNone) = true :=
        List.any_eq_true.2 ⟨c, hc, by simp [hnone]⟩
      simp [h1, h2, Except.isOk, Except.toBool]

lemma generate_explanation_ok_shape (result : FactorResult) (ctx : ExplanationContext)
    (h : generate_explanation result = .ok ctx) :
    ∃ a b rest, sortComponents result.components = a :: b :: rest ∧
      ctx = ⟨result.score, a, b, lastOf b rest, a :: b :: rest⟩ := by
  unfold generate_explanation at h
  by_cases h1 : result.components.length < 2
  · rw [if_pos h1] at h
    cases h
  · rw [if_neg h1] at h
    by_cases h2 : result.components.any (fun c => c.contribution.isNone) = true
    · rw [if_pos h2] at h
      cases h
    · rw [if_neg h2] at h
      cases hs : sortComponents result.components with
      | nil =>
        rw [hs] at h
        cases h
      | cons a tl =>
        cases tl with
        | nil =>
          rw [hs] at h
          cases h
        | cons b rest =>
          rw [hs] at h
          cases h
          exact ⟨a, b, rest, rfl, rfl⟩

/-- C7 (amended): `generate_explanation` sorts the FULL component list
(present or absent) by contribution descending with declaration order on
ties, taking top = index 0, second = index 1 and bottom = the last index of
that sorted list; it fails (TypeError or IndexError) whenever any component
has an absent contribution or fewer than two components exist.  On success
the context's components are the sorted permutation of the factor's
components, the top contributor carries a maximal contribution key and the
bottom contributor a minimal one. -/
theorem explanation_sorts_all_components (result : FactorResult) :
    ((result.components.length < 2 ∨ ∃ c ∈ result.components, c.contribution = none) →
      (generate_explanation result).isOk = false) ∧
    (∀ ctx, generate_explanation result = .ok ctx →
      ctx.components = sortComponents result.components ∧
      ctx.components.Perm result.components ∧
      (∃ rest, ctx.components = ctx.top_contributor :: ctx.second_contributor :: rest ∧
        ctx.bottom_contributor = lastOf ctx.second_contributor rest) ∧
      List.Pairwise (fun c d => contributionKey d ≤ contributionKey c) ctx.components ∧
      ctx.top_contributor ∈ result.components ∧
      ctx.bottom_contributor ∈ result.components ∧
      (∀ c ∈ result.components, contributionKey c ≤ contributionKey ctx.top_contributor) ∧
      (∀ c ∈ result.components, contributionKey ctx.bottom_contributor ≤ contributionKey c)) := by
  refine ⟨generate_explanation_fails result, ?_⟩
  intro ctx hctx
  obtain ⟨a, b, rest, hs, rfl⟩ := generate_explanation_ok_shape result ctx hctx
  have hperm : (a :: b :: rest).Perm result.components := hs ▸ sortComponents_perm result.components
  have hpw : List.Pairwise (fun c d => contributionKey d ≤ contributionKey c) (a :: b :: rest) :=
    hs ▸ sortComponents_pairwise result.components
  have hmem_iff : ∀ c, c ∈ a :: b :: rest ↔ c ∈ result.components := fun c => hperm.mem_iff
  have htop_max : ∀ c ∈ a :: b :: rest, contributionKey c ≤ contributionKey a := by
    intro c hc
    rcases List.mem_cons.1 hc with rfl | hc'
    · exact le_refl _
    · exact (List.pairwise_cons.1 hpw).1 c hc'
  have hbot : ∀ y ∈ a :: b :: rest,
      y = lastOf b rest ∨ contributionKey (lastOf b rest) ≤ contributionKey y := by
    have h := pairwise_lastOf a (b :: rest) hpw
    intro y hy
    simpa [lastOf] using h y hy
  refine ⟨by simp [hs], hperm, ⟨rest, rfl, rfl⟩, hpw, ?_, ?_, ?_, ?_⟩
  · exact (hmem_iff a).1 (List.mem_cons_self a _)
  · exact (hmem_iff (lastOf b rest)).1 (List.mem_cons_of_mem a (lastOf_mem b rest))
  · intro c hc
    exact htop_max c ((hmem_iff c).2 hc)
  · intro c hc
    rcases hbot c ((hmem_iff c).2 hc) with rfl | hle
    · exact le_refl _
    · exact hle

/-- Counterexample for C7: with one present and one absent component the
code fails with a TypeError instead of selecting among the present
components only. -/
theorem explanation_absent_component_error :
    generate_explanation c7Result =
      .error "TypeError: '<' not supported between instances of 'NoneType' and 'float'" ∧
    (presentComponents c7Result).length = 1 := by
  constructor
  · rfl
  · rfl

/-- Witness for C7 on a three-component all-present factor result. -/
theorem explanation_sorts_all_components_witness :
    c7Ctx.components = sortComponents c7OkResult.components ∧
    c7Ctx.top_contributor ∈ c7OkResult.components := by
  have hok : generate_explanation c7OkResult = .ok c7Ctx := by
    norm_num [generate_explanation, c7OkResult, c7A, c7B, c7C, c7Ctx, sortComponents,
      sortedRanked, rankComponents, List.enum, List.enumFrom, contributionKey,
      List.insertionSort, List.orderedInsert, rankedBefore, lastOf]
  have h := (explanation_sorts_all_components c7OkResult).2 c7Ctx hok
  exact ⟨h.1, h.2.2.2.2.1⟩

lemma jsMathRound_abs_le (s : ℚ) : |(jsMathRound s : ℚ) - s| ≤ 1 / 2 := by
  unfold jsMathRound
  have h1 : (⌊s + 1 / 2⌋ : ℚ) ≤ s + 1 / 2 := Int.floor_le _
  have h2 : s + 1 / 2 < ⌊s + 1 / 2⌋ + 1 := Int.lt_floor_add_one _
  rw [abs_le]
  constructor <;> linarith

lemma pyRoundHalfEven_abs_le (y : ℚ) : |(pyRoundHalfEven y : ℚ) - y| ≤ 1 / 2 := by
  unfold pyRoundHalfEven
  have h1 : (⌊y⌋ : ℚ) ≤ y := Int.floor_le y
  have h2 : y < ⌊y⌋ + 1 := Int.lt_floor_add_one y
  by_cases c1 : y - (⌊y⌋ : ℚ) < 1 / 2
  · rw [if_pos c1, abs_le]
    constructor <;> linarith
  · rw [if_neg c1]
    by_cases c2 : 1 / 2 < y - (⌊y⌋ : ℚ)
    · rw [if_pos c2, abs_le]
      push_cast
      constructor <;> linarith
    · rw [if_neg c2]
      by_cases c3 : ⌊y⌋ % 2 = 0
      · rw [if_pos c3, abs_le]
        constructor <;> linarith
      · rw [if_neg c3, abs_le]
        push_cast
        constructor <;> linarith

lemma pyRound1_abs_le (x : ℚ) : |pyRound1 x - x| ≤ 1 / 20 := by
  unfold pyRound1
  rw [show (pyRoundHalfEven (10 * x) : ℚ) / 10 - x =
    ((pyRoundHalfEven (10 * x) : ℚ) - 10 * x) / 10 by ring, abs_div,
    show |(10 : ℚ)| = 10 by norm_num]
  linarith [pyRoundHalfEven_abs_le (10 * x)]

/-- C9 (amended): the web display rounds a present factor score to the
NEAREST INTEGER (Math.round), not to one decimal place, and renders the
em dash when it is absent; the engine's own rounding is the composite
calculator's one-decimal Python rounding of the overall score, while factor
scores themselves are produced and consumed at full precision (the
missing-data scenario factor score is exactly 72.5, displayed as 73). -/
theorem display_integer_rounding (s x : ℚ) :
    scoreBadgeText (some s) = toString (jsMathRound s) ∧
    factorCardScoreText (some s) = toString (jsMathRound s) ∧
    |(jsMathRound s : ℚ) - s| ≤ 1 / 2 ∧
    scoreBadgeText none = "—" ∧
    factorCardScoreText none = "—" ∧
    (∃ n : ℤ, pyRound1 x = (n : ℚ) / 10) ∧
    |pyRound1 x - x| ≤ 1 / 20 ∧
    (calculate_factor_score c1Metrics c1Config noPeers).score = some (145 / 2) ∧
    scoreBadgeText (some (145 / 2)) = "73" := by
  refine ⟨rfl, rfl, jsMathRound_abs_le s, rfl, rfl, ⟨pyRoundHalfEven (10 * x), rfl⟩,
    pyRound1_abs_le x, ?_, ?_⟩
  · have ha : resolve c1Metrics "a" = some 1 := rfl
    have hb : resolve c1Metrics "b" = some 2 := rfl
    have hc : resolve c1Metrics "c" = none := rfl
    norm_num [calculate_factor_score, c1Config, scoreMetric, ha, hb, hc, aggregateScore,
      aggregateAcc, applyBounds, dispatchMethod, threshold_score, ruleMatches, ruleScore]
  · have h : jsMathRound (145 / 2) = 73 := by
      unfold jsMathRound
      norm_num
    simp only [scoreBadgeText, h]
    rfl

/-- Counterexample for C9: the score 78.26 is displayed as "78" by
`ScoreBadge`, while its one-decimal rounding is 78.3, which is not 78 — the
display rounds to an integer, not to one decimal place. -/
theorem display_not_one_decimal :
    scoreBadgeText (some (3913 / 50)) = "78" ∧
    pyRound1 (3913 / 50) = 783 / 10 ∧
    ((783 : ℚ) / 10) ≠ 78 := by
  refine ⟨?_, ?_, by norm_num⟩
  · have h : jsMathRound (3913 / 50) = 78 := by
      unfold jsMathRound
      norm_num
    simp only [scoreBadgeText, h]
    rfl
  · unfold pyRound1 pyRoundHalfEven
    norm_num

/-- Witness for C9 at score 2.5 (display "3") and composite rounding input 0. -/
theorem display_integer_rounding_witness :
    scoreBadgeText (some (5 / 2)) = toString (jsMathRound (5 / 2)) :=
  (display_integer_rounding (5 / 2) 0).1

/-- C10: every absent metric value renders as the em-dash placeholder under
every declared value format, absent scores render as the em dash in the
score badge, factor card and score label, rendering is total, and the
placeholder is never the literal text "None" or "null". -/
theorem absent_value_placeholder (fmt : ValueFormat) :
    formatValue MetricValue.null fmt = "—" ∧
    formatValue MetricValue.null fmt ≠ "None" ∧
    formatValue MetricValue.null fmt ≠ "null" ∧
    scoreBadgeText none = "—" ∧
    factorCardScoreText none = "—" ∧
    scoreLabel none = "—" ∧
    ("—" : String) ≠ "None" ∧
    ("—" : String) ≠ "null" := by
  have h : formatValue MetricValue.null fmt = "—" := by cases fmt <;> rfl
  refine ⟨h, ?_, ?_, rfl, rfl, rfl, by decide, by decide⟩
  · rw [h]
    decide
  · rw [h]
    decide

/-- Witness for C10 at the percent format. -/
theorem absent_value_placeholder_witness :
    formatValue MetricValue.null ValueFormat.percent = "—" :=
  (absent_value_placeholder ValueFormat.percent).1

end VeraScore
